import Mathlib

/-!
Verification of the mmrapi ingestion / archive-lifecycle server.

The Go sources (srv/server.go, the sqlc query file and the SQL migrations)
are shallowly embedded below: the SQLite database becomes an explicit `DB`
record, the data directory becomes an `FS` record, byte slices become
`String`s, `int64` identifiers become `Nat`, and `float64` values become an
arbitrary carrier type `F` (the server never computes with them, it only
moves them around).  Fallible external operations (JSON unmarshalling,
base64 decoding, float parsing, disk writes, image-row inserts) are
parameters of the embedding, exactly as they are opaque calls in the code.
-/

namespace Mmr

/-- Character class of the Go regexp `[^a-zA-Z0-9._-]` used by
`sanitizeFilename`: `true` exactly on the characters the regexp keeps. -/
def isAllowedChar (c : Char) : Bool :=
  ('a' ≤ c && c ≤ 'z') || ('A' ≤ c && c ≤ 'Z') || ('0' ≤ c && c ≤ '9') ||
    c = '.' || c = '_' || c = '-'

/-- Embedding of `sanitizeFilename` (server.go): every character outside
`[a-zA-Z0-9._-]` is replaced by an underscore. -/
def sanitizeFilename (name : String) : String :=
  ⟨name.data.map (fun c => if isAllowedChar c then c else '_')⟩

/-- Embedding of the `coalesce` helper (server.go): first non-empty string,
else the empty string. -/
def coalesce : List String → String
  | [] => ""
  | v :: rest => if v ≠ "" then v else coalesce rest

/-- Embedding of `ptrIfNotEmpty` (server.go): `nil` for the empty string. -/
def ptrIfNotEmpty (s : String) : Option String :=
  if s = "" then none else some s

/-- Decimal digit character, as produced by Go's `%d` formatting. -/
def digitChar (n : Nat) : Char := Char.ofNat (48 + n)

/-- Fuel-driven most-significant-digit-first decimal rendering. -/
def natDecAux : Nat → Nat → List Char
  | 0, _ => []
  | fuel + 1, n =>
      if n < 10 then [digitChar n]
      else natDecAux fuel (n / 10) ++ [digitChar (n % 10)]

/-- Model of `fmt.Sprintf("%d", n)` for a non-negative integer. -/
def natToDec (n : Nat) : String := ⟨natDecAux (n + 1) n⟩

/-- Decimal value of a digit string (inverse of `natDecAux`). -/
def decVal (l : List Char) : Nat :=
  l.foldl (fun acc c => acc * 10 + (c.toNat - 48)) 0

theorem decVal_append (l : List Char) (c : Char) :
    decVal (l ++ [c]) = decVal l * 10 + (c.toNat - 48) := by
  simp [decVal, List.foldl_append]

theorem digitChar_toNat {n : Nat} (h : n < 10) : (digitChar n).toNat = 48 + n := by
  interval_cases n <;> rfl

theorem decVal_natDecAux : ∀ fuel n, n < fuel → decVal (natDecAux fuel n) = n := by
  intro fuel
  induction fuel with
  | zero => intro n h; omega
  | succ f ih =>
      intro n h
      by_cases h10 : n < 10
      · simp only [natDecAux, if_pos h10]
        have : (digitChar n).toNat = 48 + n := digitChar_toNat h10
        simp [decVal, this]
      · simp only [natDecAux, if_neg h10]
        rw [decVal_append]
        have hd : n / 10 < f := by
          have h1 : n / 10 < n := Nat.div_lt_self (by omega) (by omega)
          omega
        rw [ih (n / 10) hd]
        have hm : n % 10 < 10 := Nat.mod_lt _ (by omega)
        rw [digitChar_toNat hm]
        omega

theorem natToDec_inj {m n : Nat} (h : natToDec m = natToDec n) : m = n := by
  have hd : natDecAux (m + 1) m = natDecAux (n + 1) n := congrArg String.data h
  have hm := decVal_natDecAux (m + 1) m (Nat.lt_succ_self m)
  have hn := decVal_natDecAux (n + 1) n (Nat.lt_succ_self n)
  rw [← hm, ← hn, hd]

theorem natDecAux_ne_nil (n : Nat) : natDecAux (n + 1) n ≠ [] := by
  by_cases h : n < 10
  · simp [natDecAux, h]
  · simp [natDecAux, h]

theorem natToDec_ne_empty (n : Nat) : natToDec n ≠ "" := by
  intro h
  exact natDecAux_ne_nil n (congrArg String.data h)

/-- Model of Go `strings.ToLower` restricted to the character-wise case map. -/
def strLower (s : String) : String := ⟨s.data.map Char.toLower⟩

/-- Model of Go `strings.HasSuffix suf s` (`s` ends with `suf`). -/
def strHasSuffix (s suf : String) : Bool := List.isSuffixOf suf.data s.data

/-- Model of Go `strings.Contains s sub`. -/
def strContainsSub (s sub : String) : Bool := decide (sub.data <:+: s.data)

/-- Model of Go `strings.HasPrefix`-style check (`s` starts with `p`),
used to state the filename-prefix properties. -/
def strHasPre (s p : String) : Bool := List.isPrefixOf p.data s.data

/-! ## Incoming JSON payload (`IncomingEvent` in server.go)

`F` stands for Go's `float64`: the server parses such values and stores
them but never computes with them. -/

/-- Embedded `geotag` object of the payload. -/
structure GeoTag (F : Type) where
  lat : F
  lon : F
  deriving DecidableEq

/-- Embedded `vehicle_info` object of the payload. -/
structure VehicleInfoJ where
  make : String
  model : String
  color : String
  typ : String
  confidenceMMR : String
  confidenceColor : String
  deriving DecidableEq

/-- Embedded `camera_info` object of the payload. -/
structure CameraInfoJ where
  serialNumber : String
  ipAddress : String
  deriving DecidableEq

/-- One element of the `ImageArray` field of the payload. -/
structure ImageArrayEntry where
  imageType : String
  imageFormat : String
  binaryImage : String
  deriving DecidableEq

/-- Embedding of the `IncomingEvent` struct of server.go.  String fields
absent from the JSON decode to `""`, pointer-typed objects to `none`,
exactly as Go's `encoding/json` leaves the zero value in place. -/
structure IncomingEvent (F : Type) where
  carID : String := ""
  carId : String := ""
  carId2 : String := ""
  plateUTF8 : String := ""
  plateText : String := ""
  plateRegion : String := ""
  plateRegionCode : String := ""
  plateCountry : String := ""
  plateConfidence : String := ""
  carState : String := ""
  carState2 : String := ""
  dateTime : String := ""
  captureTimestamp : String := ""
  sensorProviderID : String := ""
  packetCounter : String := ""
  geotag : Option (GeoTag F) := none
  vehicleInfo : Option VehicleInfoJ := none
  cameraInfo : Option CameraInfoJ := none
  imageFile : String := ""
  imageFile2 : String := ""
  imageArray : List ImageArrayEntry := []
  deriving DecidableEq

/-! ## Database rows (schema of the SQL migrations) -/

/-- Row of the `events` table; columns exactly those written by
`InsertEvent`, `UpdateEventJsonFilename` and `ArchiveCurrentEvents`. -/
structure EventRow (F : Type) where
  id : Nat
  carID : String
  plateUtf8 : Option String
  carState : Option String
  sensorProviderID : Option String
  eventDatetime : Option String
  captureTimestamp : Option String
  plateCountry : Option String
  plateRegion : Option String
  plateRegionCode : Option String
  plateConfidence : Option F
  geotagLat : Option F
  geotagLon : Option F
  vehicleMake : Option String
  vehicleModel : Option String
  vehicleColor : Option String
  vehicleTyp : Option String
  confidenceMmr : Option String
  confidenceColor : Option String
  cameraSerial : Option String
  cameraIp : Option String
  rawJson : Option String
  createdAt : Nat
  jsonFilename : Option String
  archiveId : Option Nat
  deriving DecidableEq

/-- Row of the `images` table. -/
structure ImageRow where
  id : Nat
  eventId : Nat
  imageType : Option String
  filename : Option String
  imageData : String
  createdAt : Nat
  diskFilename : Option String
  deriving DecidableEq

/-- Row of the `archives` table. -/
structure ArchiveRow where
  id : Nat
  name : Option String
  eventCount : Nat
  createdAt : Nat
  deriving DecidableEq

/-- Row of the `compare_results` table (migration 006); the `id` and
`created_at` columns are never read by any query in the repository and are
omitted. -/
structure CompareRow where
  archiveId : Nat
  eventId : Nat
  field : String
  isIncorrect : Bool
  updatedAt : Nat
  deriving DecidableEq

/-- The SQLite database: the four tables plus the autoincrement counters.
Row order models SQLite's rowid order (inserts append). -/
structure DB (F : Type) where
  events : List (EventRow F) := []
  images : List ImageRow := []
  archives : List ArchiveRow := []
  compareResults : List CompareRow := []
  nextEventId : Nat := 1
  nextImageId : Nat := 1
  nextArchiveId : Nat := 1
  deriving DecidableEq

/-- The data directory: the set of paths that currently hold a file.
Paths are `"json/…"` and `"images/…"` relative to `DataDir`. -/
structure FS where
  files : List String := []
  deriving DecidableEq

/-- Model of `os.WriteFile` (successful case): the path now exists. -/
def FS.write (fs : FS) (path : String) : FS := ⟨path :: fs.files⟩

/-- Model of `os.Remove` as invoked by `HandleDeleteArchive`: the handler
discards the returned error, so removing a missing path is simply a no-op. -/
def FS.remove (fs : FS) (path : String) : FS := ⟨fs.files.filter (· ≠ path)⟩

/-! ## sqlc queries (db/queries/events.sql) -/

/-- `CountCurrentEvents`: `SELECT COUNT(*) FROM events WHERE archive_id IS NULL`. -/
def countCurrentEvents {F : Type} (db : DB F) : Nat :=
  (db.events.filter (fun e => e.archiveId.isNone)).length

/-- `GetEventByID`: `SELECT * FROM events WHERE id = ?`. -/
def getEventByID {F : Type} (db : DB F) (id : Nat) : Option (EventRow F) :=
  db.events.find? (fun e => e.id = id)

/-- `GetCompareResults`: all compare rows of one archive. -/
def getCompareResults {F : Type} (db : DB F) (aid : Nat) : List CompareRow :=
  db.compareResults.filter (fun r => r.archiveId = aid)

/-- `InsertEvent … RETURNING id`: append the row, return its id. -/
def insertEvent {F : Type} (db : DB F) (mk : Nat → EventRow F) : Nat × DB F :=
  (db.nextEventId,
    { db with
      events := db.events ++ [mk db.nextEventId]
      nextEventId := db.nextEventId + 1 })

/-- `InsertImage` followed by `SELECT last_insert_rowid()`
(`insertImageWithID` in server.go). -/
def insertImageWithID {F : Type} (db : DB F) (mk : Nat → ImageRow) : Nat × DB F :=
  (db.nextImageId,
    { db with
      images := db.images ++ [mk db.nextImageId]
      nextImageId := db.nextImageId + 1 })

/-- `UpdateEventJsonFilename`: `UPDATE events SET json_filename = ? WHERE id = ?`. -/
def updateEventJsonFilename {F : Type} (db : DB F) (name : String) (id : Nat) : DB F :=
  { db with
    events := db.events.map (fun e =>
      if e.id = id then { e with jsonFilename := some name } else e) }

/-- `UpdateImageDiskFilename`: `UPDATE images SET disk_filename = ? WHERE id = ?`. -/
def updateImageDiskFilename {F : Type} (db : DB F) (name : String) (id : Nat) : DB F :=
  { db with
    images := db.images.map (fun i =>
      if i.id = id then { i with diskFilename := some name } else i) }

/-- `CreateArchive … RETURNING id`. -/
def createArchive {F : Type} (db : DB F) (name : String) (count : Nat) (now : Nat) :
    Nat × DB F :=
  (db.nextArchiveId,
    { db with
      archives := db.archives ++
        [{ id := db.nextArchiveId, name := some name, eventCount := count,
           createdAt := now }]
      nextArchiveId := db.nextArchiveId + 1 })

/-- `ArchiveCurrentEvents`: `UPDATE events SET archive_id = ? WHERE archive_id IS NULL`. -/
def archiveCurrentEvents {F : Type} (db : DB F) (aid : Nat) : DB F :=
  { db with
    events := db.events.map (fun e =>
      if e.archiveId.isNone then { e with archiveId := some aid } else e) }

/-- `GetArchivedEventFiles`: events of the archive LEFT JOINed with their
images, yielding `(json_filename, disk_filename)` pairs. -/
def getArchivedEventFiles {F : Type} (db : DB F) (aid : Nat) :
    List (Option String × Option String) :=
  (db.events.filter (fun e => e.archiveId = some aid)).flatMap (fun e =>
    let imgs := db.images.filter (fun i => i.eventId = e.id)
    if imgs.isEmpty then [(e.jsonFilename, none)]
    else imgs.map (fun i => (e.jsonFilename, i.diskFilename)))

/-- `DeleteArchiveImages`: delete images whose event belongs to the archive. -/
def deleteArchiveImages {F : Type} (db : DB F) (aid : Nat) : DB F :=
  { db with
    images := db.images.filter (fun i =>
      ¬ db.events.any (fun e => e.id = i.eventId && e.archiveId = some aid)) }

/-- `DeleteArchiveEvents`: `DELETE FROM events WHERE archive_id = ?`. -/
def deleteArchiveEvents {F : Type} (db : DB F) (aid : Nat) : DB F :=
  { db with events := db.events.filter (fun e => e.archiveId ≠ some aid) }

/-- Modelled from the spec: `DELETE FROM archives WHERE id = ?` together
with the `ON DELETE CASCADE` that migration 006 declares on
`compare_results.archive_id`.  The connection setup (`db.Open`, which turns
foreign-key enforcement on) is not under src/; the spec states that
deleting an archive also deletes "any CompareResults referencing it", which
is exactly the declared cascade. -/
def deleteArchiveRow {F : Type} (db : DB F) (aid : Nat) : DB F :=
  { db with
    archives := db.archives.filter (fun a => a.id ≠ aid)
    compareResults := db.compareResults.filter (fun r => r.archiveId ≠ aid) }

/-- The unique key of `compare_results`:
`UNIQUE(archive_id, event_id, field)` in migration 006. -/
def compareKey (aid eid : Nat) (f : String) (r : CompareRow) : Bool :=
  r.archiveId = aid && r.eventId = eid && r.field = f

/-- `SetCompareResult`: `INSERT … ON CONFLICT(archive_id, event_id, field)
DO UPDATE SET is_incorrect = excluded.is_incorrect, updated_at = …`. -/
def setCompareResult {F : Type} (db : DB F) (aid eid : Nat) (f : String)
    (v : Bool) (now : Nat) : DB F :=
  if db.compareResults.any (compareKey aid eid f) then
    { db with
      compareResults := db.compareResults.map (fun r =>
        if compareKey aid eid f r then
          { r with isIncorrect := v, updatedAt := now }
        else r) }
  else
    { db with
      compareResults := db.compareResults ++
        [{ archiveId := aid, eventId := eid, field := f, isIncorrect := v,
           updatedAt := now }] }

/-- `RenameArchive`: `UPDATE archives SET name = ? WHERE id = ?`. -/
def renameArchive {F : Type} (db : DB F) (name : String) (id : Nat) : DB F :=
  { db with
    archives := db.archives.map (fun a =>
      if a.id = id then { a with name := some name } else a) }

/-! ## The ingestion request (`HandleAPI` input) -/

/-- One multipart file part (`f.Filename`, fully read `data`). -/
structure FilePart where
  filename : String
  data : String
  deriving DecidableEq

/-- The parts of an incoming request that `HandleAPI` inspects. -/
structure Request where
  multipart : Bool
  fileParts : List FilePart := []
  formJson : String := ""
  formData : String := ""
  body : String := ""
  deriving DecidableEq

/-- Lowercased-name test for `.json` file parts. -/
def isJsonName (n : String) : Bool := strHasSuffix (strLower n) ".json"

/-- Lowercased-name test for image file parts (`.jpg`, `.jpeg`, `.png`). -/
def isImgName (n : String) : Bool :=
  strHasSuffix (strLower n) ".jpg" || strHasSuffix (strLower n) ".jpeg" ||
    strHasSuffix (strLower n) ".png"

/-- The multipart classification loop of `HandleAPI`: a `.json` part becomes
the payload (a later part overwrites an earlier one), image-suffixed parts
are appended to `uploadedImages`, anything else is ignored. -/
def classifyParts : List FilePart → Option FilePart × List FilePart
  | [] => (none, [])
  | p :: rest =>
      let (js, ups) := classifyParts rest
      if isJsonName p.filename then (some (js.getD p), ups)
      else if isImgName p.filename then (js, p :: ups)
      else (js, ups)

/-- Resolution of the raw JSON payload and its original filename: the
`.json` file part if any, else the `json` / `data` form fields, else (for a
non-multipart request) the whole body. -/
def resolvePayload (req : Request) : Option String × String :=
  if req.multipart then
    match (classifyParts req.fileParts).1 with
    | some j => (some j.data, j.filename)
    | none =>
        if req.formJson ≠ "" then (some req.formJson, "")
        else if req.formData ≠ "" then (some req.formData, "")
        else (none, "")
  else (some req.body, "")

/-- The `uploadedImages` list collected by the multipart loop. -/
def uploadsOf (req : Request) : List FilePart :=
  if req.multipart then (classifyParts req.fileParts).2 else []

/-! ## Field normalization (`HandleAPI`, "Normalize fields") -/

/-- Normalized car identifier: `coalesce(carID, carid, carId)`, with a
timestamp-synthesized `auto-<nanos>` fallback. -/
def normCarID {F : Type} (ev : IncomingEvent F) (nanos : Nat) : String :=
  let c := coalesce [ev.carID, ev.carId, ev.carId2]
  if c = "" then "auto-" ++ natToDec nanos else c

/-- Normalized plate confidence: parse only a non-empty string, keep the
value only when parsing succeeded. -/
def normPlateConfidence {F : Type} (parseFloat : String → Option F)
    (s : String) : Option F :=
  if s ≠ "" then parseFloat s else none

/-- The event row inserted by `HandleAPI` (before any backfill). -/
def mkEventRow {F : Type} (parseFloat : String → Option F)
    (ev : IncomingEvent F) (nanos now : Nat) (rawJSON : String)
    (id : Nat) : EventRow F :=
  { id := id
    carID := normCarID ev nanos
    plateUtf8 := ptrIfNotEmpty (coalesce [ev.plateUTF8, ev.plateText])
    carState := ptrIfNotEmpty (coalesce [ev.carState, ev.carState2])
    sensorProviderID := ptrIfNotEmpty ev.sensorProviderID
    eventDatetime := ptrIfNotEmpty ev.dateTime
    captureTimestamp := ptrIfNotEmpty ev.captureTimestamp
    plateCountry := ptrIfNotEmpty ev.plateCountry
    plateRegion := ptrIfNotEmpty ev.plateRegion
    plateRegionCode := ptrIfNotEmpty ev.plateRegionCode
    plateConfidence := normPlateConfidence parseFloat ev.plateConfidence
    geotagLat := match ev.geotag with | some g => some g.lat | none => none
    geotagLon := match ev.geotag with | some g => some g.lon | none => none
    vehicleMake := match ev.vehicleInfo with
      | some vi => ptrIfNotEmpty vi.make | none => none
    vehicleModel := match ev.vehicleInfo with
      | some vi => ptrIfNotEmpty vi.model | none => none
    vehicleColor := match ev.vehicleInfo with
      | some vi => ptrIfNotEmpty vi.color | none => none
    vehicleTyp := match ev.vehicleInfo with
      | some vi => ptrIfNotEmpty vi.typ | none => none
    confidenceMmr := match ev.vehicleInfo with
      | some vi => ptrIfNotEmpty vi.confidenceMMR | none => none
    confidenceColor := match ev.vehicleInfo with
      | some vi => ptrIfNotEmpty vi.confidenceColor | none => none
    cameraSerial := match ev.cameraInfo with
      | some ci => ptrIfNotEmpty ci.serialNumber | none => none
    cameraIp := match ev.cameraInfo with
      | some ci => ptrIfNotEmpty ci.ipAddress | none => none
    rawJson := some rawJSON
    createdAt := now
    jsonFilename := none
    archiveId := none }

/-- Plate-derived fallback name component (`safePlate` in server.go). -/
def safePlateOf (plate : String) : String :=
  let sp := sanitizeFilename plate
  if sp = "" then "unknown" else sp

/-- Disk name for the JSON payload: `{id}_{plate}.json` when no original
filename was supplied, else `{id}_{sanitized original}`. -/
def mkJsonFilename (eventID : Nat) (jsonFilename plate : String) : String :=
  if jsonFilename = "" then
    (natToDec eventID ++ "_") ++ (safePlateOf plate ++ ".json")
  else
    (natToDec eventID ++ "_") ++ sanitizeFilename jsonFilename

/-- Image-type inference from an uploaded filename. -/
def detectImgType (filename : String) : String :=
  let l := strLower filename
  if strContainsSub l "lpup" || strContainsSub l "plate" then "plate"
  else if strContainsSub l "roi" || strContainsSub l "vehicle" then "vehicle"
  else "uploaded"

/-- Disk name for an uploaded image: `{imgID}_{sanitized source name}`,
falling back to `{imgID}_{plate}_{i}.jpg` when the sanitized name is empty. -/
def mkUploadDiskName (imgID : Nat) (filename plate : String) (i : Nat) : String :=
  let d := (natToDec imgID ++ "_") ++ sanitizeFilename filename
  if d = natToDec imgID ++ "_" then
    (natToDec imgID ++ "_") ++ (safePlateOf plate ++ "_" ++ natToDec i ++ ".jpg")
  else d

/-- The `uploadedImages` loop of `HandleAPI`, over the index-paired list.
`insOk i` is the outcome of the image-row insert for loop index `i`
(a database error makes the loop `continue` without counting); `writeOk`
is the outcome of the disk write (a failure skips only the backfill). -/
def saveUploadedImages {F : Type} (writeOk : String → Bool) (insOk : Nat → Bool)
    (plate : String) (eventID now : Nat) :
    List (Nat × FilePart) → DB F → FS → DB F × FS × Nat
  | [], db, fs => (db, fs, 0)
  | (i, img) :: rest, db, fs =>
      if insOk i then
        let imgType := detectImgType img.filename
        let r := insertImageWithID db (fun iid =>
          { id := iid, eventId := eventID, imageType := some imgType,
            filename := some img.filename, imageData := img.data,
            createdAt := now, diskFilename := none })
        let diskName := mkUploadDiskName r.1 img.filename plate i
        let path := "images/" ++ diskName
        let next :=
          if writeOk path then
            (updateImageDiskFilename r.2 diskName r.1, fs.write path)
          else (r.2, fs)
        let rec1 := saveUploadedImages writeOk insOk plate eventID now rest next.1 next.2
        (rec1.1, rec1.2.1, rec1.2.2 + 1)
      else
        saveUploadedImages writeOk insOk plate eventID now rest db fs

/-- The `ImageArray` loop of `HandleAPI`: an element with an empty
`BinaryImage` is skipped, an element whose base64 decode fails is skipped,
a failed insert is skipped; everything else is inserted, counted, and
best-effort written to disk. -/
def saveEmbeddedImages {F : Type} (decode64 : String → Option String)
    (writeOk : String → Bool) (insOk : Nat → Bool)
    (plate : String) (eventID now : Nat) :
    List (Nat × ImageArrayEntry) → DB F → FS → DB F × FS × Nat
  | [], db, fs => (db, fs, 0)
  | (i, img) :: rest, db, fs =>
      if img.binaryImage = "" then
        saveEmbeddedImages decode64 writeOk insOk plate eventID now rest db fs
      else
        match decode64 img.binaryImage with
        | none => saveEmbeddedImages decode64 writeOk insOk plate eventID now rest db fs
        | some decoded =>
            if insOk i then
              let imgType := if img.imageType = "" then "embedded" else img.imageType
              let ext := if img.imageFormat = "" then "jpg" else img.imageFormat
              let filename := imgType ++ "_" ++ natToDec i ++ "." ++ ext
              let r := insertImageWithID db (fun iid =>
                { id := iid, eventId := eventID, imageType := some imgType,
                  filename := some filename, imageData := decoded,
                  createdAt := now, diskFilename := none })
              let diskName :=
                (natToDec r.1 ++ "_") ++
                  (safePlateOf plate ++ "_" ++ imgType ++ "." ++ ext)
              let path := "images/" ++ diskName
              let next :=
                if writeOk path then
                  (updateImageDiskFilename r.2 diskName r.1, fs.write path)
                else (r.2, fs)
              let rec1 := saveEmbeddedImages decode64 writeOk insOk plate eventID now rest next.1 next.2
              (rec1.1, rec1.2.1, rec1.2.2 + 1)
            else
              saveEmbeddedImages decode64 writeOk insOk plate eventID now rest db fs

/-- Result reported by the ingestion endpoint. -/
inductive ApiResponse where
  | ok (id : Nat) (plate : String) (images : Nat)
  | clientError (msg : String)
  deriving DecidableEq

/-- Embedding of `HandleAPI`.  `unmarshal` is `encoding/json`, `parseFloat`
is `strconv.ParseFloat`, `decode64` is `base64.StdEncoding.DecodeString`,
`nanos` the `time.Now().UnixNano()` used for the synthesized car id, `now`
the `time.Now()` creation stamp; `writeOk`, `insUpOk`, `insEmbOk` are the
outcomes of the fallible disk writes and image-row inserts. -/
def handleAPI {F : Type} (unmarshal : String → Option (IncomingEvent F))
    (parseFloat : String → Option F) (decode64 : String → Option String)
    (nanos now : Nat) (writeOk : String → Bool) (insUpOk insEmbOk : Nat → Bool)
    (req : Request) (db : DB F) (fs : FS) : ApiResponse × DB F × FS :=
  let pay := resolvePayload req
  match pay.1 with
  | none => (.clientError "no JSON data provided", db, fs)
  | some rawJSON =>
      if rawJSON = "" then (.clientError "no JSON data provided", db, fs)
      else
        match unmarshal rawJSON with
        | none => (.clientError "invalid JSON", db, fs)
        | some ev =>
            let plate := coalesce [ev.plateUTF8, ev.plateText]
            let ins := insertEvent db (mkEventRow parseFloat ev nanos now rawJSON)
            let eventID := ins.1
            let jsonName := mkJsonFilename eventID pay.2 plate
            let jpath := "json/" ++ jsonName
            let st1 :=
              if writeOk jpath then
                (updateEventJsonFilename ins.2 jsonName eventID, FS.write fs jpath)
              else (ins.2, fs)
            let st2 := saveUploadedImages writeOk insUpOk plate eventID now
              (uploadsOf req).enum st1.1 st1.2
            let st3 := saveEmbeddedImages decode64 writeOk insEmbOk plate eventID now
              ev.imageArray.enum st2.1 st2.2.1
            (.ok eventID plate (st2.2.2 + st3.2.2), st3.1, st3.2.1)

/-- Embedding of `HandleClean`: count current events; zero is a no-op;
otherwise create one archive stamped with the count and bulk-assign. -/
def handleClean {F : Type} (now : Nat) (db : DB F) : DB F :=
  if countCurrentEvents db = 0 then db
  else
    let c := createArchive db (natToDec now) (countCurrentEvents db) now
    archiveCurrentEvents c.2 c.1

/-- Embedding of `HandleDeleteArchive`: collect the `(json, image)` file
pairs, best-effort remove them from disk (errors discarded), then delete
images, events and the archive row (with its compare-result cascade).
The handler reports no error in any of these steps. -/
def handleDeleteArchive {F : Type} (aid : Nat) (db : DB F) (fs : FS) :
    DB F × FS :=
  let files := getArchivedEventFiles db aid
  let fs1 := files.foldl (fun acc p =>
    let acc1 := match p.1 with
      | some n => if n ≠ "" then acc.remove ("json/" ++ n) else acc
      | none => acc
    match p.2 with
      | some n => if n ≠ "" then acc1.remove ("images/" ++ n) else acc1
      | none => acc1) fs
  let db1 := deleteArchiveImages db aid
  let db2 := deleteArchiveEvents db1 aid
  let db3 := deleteArchiveRow db2 aid
  (db3, fs1)

/-- The `validFields` set of `HandleCompareToggle`. -/
def validCompareField (f : String) : Bool :=
  f = "plate" || f = "maker" || f = "model" || f = "color"

/-- Result of the compare-toggle endpoint. -/
inductive ToggleResponse where
  | ok
  | badField
  deriving DecidableEq

/-- Embedding of `HandleCompareToggle`: an unknown field is rejected before
any storage call; otherwise the upsert runs. -/
def handleCompareToggle {F : Type} (aid eid : Nat) (f : String) (v : Bool)
    (now : Nat) (db : DB F) : ToggleResponse × DB F :=
  if ¬ validCompareField f then (.badField, db)
  else (.ok, setCompareResult db aid eid f v now)

/-- Embedding of `HandleRenameArchive`: trim, reject empty, else update. -/
def handleRenameArchive {F : Type} (aid : Nat) (name : String) (db : DB F) : DB F :=
  let trimmed := name.trim
  if trimmed = "" then db else renameArchive db trimmed aid

/-- Every state-mutating operation of the server, for the lifecycle
invariant. -/
inductive Op (F : Type) where
  | api (unmarshal : String → Option (IncomingEvent F))
      (parseFloat : String → Option F) (decode64 : String → Option String)
      (nanos now : Nat) (writeOk : String → Bool) (insUpOk insEmbOk : Nat → Bool)
      (req : Request)
  | clean (now : Nat)
  | deleteArch (aid : Nat)
  | renameArch (aid : Nat) (name : String)
  | toggle (aid eid : Nat) (f : String) (v : Bool) (now : Nat)

/-- State transition of one operation. -/
def applyOp {F : Type} : Op F → DB F × FS → DB F × FS
  | .api u p d nanos now w iu ie req, s =>
      let r := handleAPI u p d nanos now w iu ie req s.1 s.2
      (r.2.1, r.2.2)
  | .clean now, s => (handleClean now s.1, s.2)
  | .deleteArch aid, s => handleDeleteArchive aid s.1 s.2
  | .renameArch aid name, s => (handleRenameArchive aid name s.1, s.2)
  | .toggle aid eid f v now, s => ((handleCompareToggle aid eid f v now s.1).2, s.2)

/-! ## Helper lemmas -/

theorem strHasPre_append (p t : String) : strHasPre (p ++ t) p = true := by
  simp only [strHasPre, String.data_append]
  exact List.isPrefixOf_iff_prefix.mpr (List.prefix_append _ _)

theorem string_append_left_inj {a x y : String} (h : a ++ x = a ++ y) : x = y := by
  have hd := congrArg String.data h
  simp only [String.data_append] at hd
  exact String.ext (List.append_cancel_left hd)

/-- The synthesized `auto-<nanos>` identifiers of two calls with different
nano timestamps differ. -/
theorem autoId_inj {n1 n2 : Nat} (h : n1 ≠ n2) :
    ("auto-" ++ natToDec n1 : String) ≠ "auto-" ++ natToDec n2 := by
  intro he
  exact h (natToDec_inj (string_append_left_inj he))

/-- A fresh-id `json_filename` update leaves existing event rows alone. -/
theorem map_updJson_fresh {F : Type} (l : List (EventRow F)) (k : Nat) (name : String)
    (h : ∀ e ∈ l, e.id < k) :
    l.map (fun e => if e.id = k then { e with jsonFilename := some name } else e) = l := by
  conv_rhs => rw [← List.map_id l]
  apply List.map_congr_left
  intro e he
  have hne : e.id ≠ k := Nat.ne_of_lt (h e he)
  simp [hne]

/-- A fresh-id `disk_filename` update leaves existing image rows alone. -/
theorem map_updDisk_fresh (l : List ImageRow) (k : Nat) (name : String)
    (h : ∀ i ∈ l, i.id < k) :
    l.map (fun i => if i.id = k then { i with diskFilename := some name } else i) = l := by
  conv_rhs => rw [← List.map_id l]
  apply List.map_congr_left
  intro i hi
  have hne : i.id ≠ k := Nat.ne_of_lt (h i hi)
  simp [hne]

/-- The uploaded-images loop never touches the `events` table (nor the
archives, compare results, or the event-id counter). -/
theorem saveUploadedImages_events {F : Type} (w : String → Bool) (io : Nat → Bool)
    (pl : String) (eid now : Nat) :
    ∀ (l : List (Nat × FilePart)) (db : DB F) (fs : FS),
      (saveUploadedImages w io pl eid now l db fs).1.events = db.events ∧
      (saveUploadedImages w io pl eid now l db fs).1.archives = db.archives ∧
      (saveUploadedImages w io pl eid now l db fs).1.compareResults = db.compareResults ∧
      (saveUploadedImages w io pl eid now l db fs).1.nextEventId = db.nextEventId := by
  intro l
  induction l with
  | nil => intro db fs; exact ⟨rfl, rfl, rfl, rfl⟩
  | cons p rest ih =>
      intro db fs
      obtain ⟨i, img⟩ := p
      by_cases h : io i
      · simp only [saveUploadedImages, h, if_pos]
        by_cases hw : w ("images/" ++ mkUploadDiskName db.nextImageId img.filename pl i)
        · simpa [insertImageWithID, updateImageDiskFilename, hw] using
            ih _ _
        · simpa [insertImageWithID, updateImageDiskFilename, hw] using
            ih _ _
      · simpa [saveUploadedImages, h] using ih db fs

/-- The embedded-images loop never touches the `events` table (nor the
archives, compare results, or the event-id counter). -/
theorem saveEmbeddedImages_events {F : Type} (d : String → Option String)
    (w : String → Bool) (io : Nat → Bool) (pl : String) (eid now : Nat) :
    ∀ (l : List (Nat × ImageArrayEntry)) (db : DB F) (fs : FS),
      (saveEmbeddedImages d w io pl eid now l db fs).1.events = db.events ∧
      (saveEmbeddedImages d w io pl eid now l db fs).1.archives = db.archives ∧
      (saveEmbeddedImages d w io pl eid now l db fs).1.compareResults = db.compareResults ∧
      (saveEmbeddedImages d w io pl eid now l db fs).1.nextEventId = db.nextEventId := by
  intro l
  induction l with
  | nil => intro db fs; exact ⟨rfl, rfl, rfl, rfl⟩
  | cons p rest ih =>
      intro db fs
      obtain ⟨i, img⟩ := p
      by_cases hb : img.binaryImage = ""
      · simpa [saveEmbeddedImages, hb] using ih db fs
      · cases hd : d img.binaryImage with
        | none => simpa [saveEmbeddedImages, hb, hd] using ih db fs
        | some decoded =>
            by_cases h : io i
            · by_cases hw : w ("images/" ++
                  ((natToDec db.nextImageId ++ "_") ++
                    (safePlateOf pl ++ "_" ++
                      (if img.imageType = "" then "embedded" else img.imageType) ++ "." ++
                      (if img.imageFormat = "" then "jpg" else img.imageFormat))))
              · simpa [saveEmbeddedImages, insertImageWithID, updateImageDiskFilename,
                  hb, hd, h, hw] using ih _ _
              · simpa [saveEmbeddedImages, insertImageWithID, updateImageDiskFilename,
                  hb, hd, h, hw] using ih _ _
            · simpa [saveEmbeddedImages, hb, hd, h] using ih db fs

/-- Equation form of `saveUploadedImages_events` for rewriting. -/
theorem saveUp_events_eq {F : Type} (w : String → Bool) (io : Nat → Bool)
    (pl : String) (eid now : Nat) (l : List (Nat × FilePart)) (db : DB F) (fs : FS) :
    (saveUploadedImages w io pl eid now l db fs).1.events = db.events :=
  (saveUploadedImages_events w io pl eid now l db fs).1

/-- Equation form of `saveEmbeddedImages_events` for rewriting. -/
theorem saveEmb_events_eq {F : Type} (d : String → Option String)
    (w : String → Bool) (io : Nat → Bool) (pl : String) (eid now : Nat)
    (l : List (Nat × ImageArrayEntry)) (db : DB F) (fs : FS) :
    (saveEmbeddedImages d w io pl eid now l db fs).1.events = db.events :=
  (saveEmbeddedImages_events d w io pl eid now l db fs).1

/-- Shape of a successful ingestion: the response is `ok` for the freshly
assigned id, and the `events` table grows by exactly the normalized row
(whose `json_filename` is backfilled only on a successful disk write). -/
theorem handleAPI_shape {F : Type} (unmarshal : String → Option (IncomingEvent F))
    (parseFloat : String → Option F) (decode64 : String → Option String)
    (nanos now : Nat) (writeOk : String → Bool) (insUpOk insEmbOk : Nat → Bool)
    (req : Request) (db : DB F) (fs : FS) (raw : String) (ev : IncomingEvent F)
    (h1 : (resolvePayload req).1 = some raw) (h2 : raw ≠ "")
    (h3 : unmarshal raw = some ev)
    (h4 : ∀ e ∈ db.events, e.id < db.nextEventId) :
    (∃ n, (handleAPI unmarshal parseFloat decode64 nanos now writeOk insUpOk insEmbOk
        req db fs).1 = .ok db.nextEventId (coalesce [ev.plateUTF8, ev.plateText]) n) ∧
    ∃ jf, (handleAPI unmarshal parseFloat decode64 nanos now writeOk insUpOk insEmbOk
        req db fs).2.1.events =
      db.events ++
        [{ mkEventRow parseFloat ev nanos now raw db.nextEventId with jsonFilename := jf }] := by
  constructor
  · simp only [handleAPI, h1, h3]
    rw [if_neg h2]
    exact ⟨_, rfl⟩
  · simp only [handleAPI, h1, h3, insertEvent]
    rw [if_neg h2]
    by_cases hw : writeOk ("json/" ++ mkJsonFilename db.nextEventId (resolvePayload req).2
        (coalesce [ev.plateUTF8, ev.plateText]))
    · refine ⟨some (mkJsonFilename db.nextEventId (resolvePayload req).2
        (coalesce [ev.plateUTF8, ev.plateText])), ?_⟩
      rw [if_pos hw]
      simp only [saveEmb_events_eq, saveUp_events_eq, updateEventJsonFilename,
        List.map_append]
      rw [map_updJson_fresh _ _ _ h4]
      have hid : (mkEventRow parseFloat ev nanos now raw db.nextEventId).id
          = db.nextEventId := rfl
      simp [hid]
    · refine ⟨none, ?_⟩
      rw [if_neg hw]
      simp only [saveEmb_events_eq, saveUp_events_eq]
      rfl

theorem auto_ne_empty (n : Nat) : ("auto-" ++ natToDec n : String) ≠ "" := by
  intro h
  have hd : ("auto-" ++ natToDec n : String).data = [] := by rw [h]
  rw [String.data_append] at hd
  rcases List.append_eq_nil.mp hd with ⟨ha, _⟩
  exact absurd ha (by decide)

/-! ## Witness fixtures (concrete instances used to instantiate the
universally quantified theorems) -/

/-- A payload with every field absent. -/
def evEmpty : IncomingEvent Int := {}

/-- A payload whose `plateConfidence` is a non-empty string. -/
def evConf : IncomingEvent Int := { plateConfidence := "abc" }

/-- A payload with a geotag. -/
def evGeo : IncomingEvent Int := { geotag := some ⟨3, 4⟩ }

/-- A payload with two embedded images, one empty and one undecodable. -/
def evImgs : IncomingEvent Int :=
  { imageArray := [⟨"plate", "jpg", "AAA"⟩, ⟨"", "", ""⟩, ⟨"roi", "png", "%%"⟩] }

/-- A fixed stand-in for `encoding/json` unmarshalling. -/
def unmFix : String → Option (IncomingEvent Int) := fun s =>
  if s = "E" then some evEmpty
  else if s = "C" then some evConf
  else if s = "G" then some evGeo
  else if s = "I" then some evImgs
  else none

/-- A float parser that always fails. -/
def pfNone : String → Option Int := fun _ => none

/-- A base64 decoder that accepts only the literal `"AAA"`. -/
def dcFix : String → Option String := fun s => if s = "AAA" then some "\x00\x00" else none

/-- All disk writes succeed. -/
def allTrue : String → Bool := fun _ => true

/-- All image-row inserts succeed. -/
def idxTrue : Nat → Bool := fun _ => true

/-- A plain-JSON-body request around the given body. -/
def reqOf (b : String) : Request := { multipart := false, body := b }

/-- A multipart request with one `.json` part and two `.jpg` parts. -/
def reqMp : Request :=
  { multipart := true,
    fileParts := [⟨"e.json", "E"⟩, ⟨"x.jpg", "D1"⟩, ⟨"roi.jpg", "D2"⟩] }

/-- A bare current (unarchived) event row. -/
def rowCur : EventRow Int :=
  { id := 1, carID := "c", plateUtf8 := none, carState := none,
    sensorProviderID := none, eventDatetime := none, captureTimestamp := none,
    plateCountry := none, plateRegion := none, plateRegionCode := none,
    plateConfidence := none, geotagLat := none, geotagLon := none,
    vehicleMake := none, vehicleModel := none, vehicleColor := none,
    vehicleTyp := none, confidenceMmr := none, confidenceColor := none,
    cameraSerial := none, cameraIp := none, rawJson := none, createdAt := 0,
    jsonFilename := none, archiveId := none }

/-- A database holding exactly one current event. -/
def dbOneCurrent : DB Int := { events := [rowCur], nextEventId := 2 }

/-- A database holding one archived event with an image, a compare flag and
the archive row. -/
def dbArch : DB Int :=
  { events := [{ rowCur with archiveId := some 1 }]
    images := [{ id := 1, eventId := 1, imageType := some "plate",
                 filename := some "p.jpg", imageData := "d", createdAt := 0,
                 diskFilename := some "1_p.jpg" }]
    archives := [{ id := 1, name := some "a", eventCount := 1, createdAt := 0 }]
    compareResults := [{ archiveId := 1, eventId := 1, field := "plate",
                         isIncorrect := true, updatedAt := 0 }]
    nextEventId := 2, nextImageId := 2, nextArchiveId := 2 }

/-! ## Claims -/

/-- C10: every character of `sanitizeFilename`'s output lies in
`{a-z, A-Z, 0-9, '.', '_', '-'}`, and `sanitizeFilename` is idempotent. -/
theorem sanitizeFilename_allowed_idem (s : String) :
    (∀ c ∈ (sanitizeFilename s).data, isAllowedChar c = true) ∧
    sanitizeFilename (sanitizeFilename s) = sanitizeFilename s := by
  constructor
  · intro c hc
    simp only [sanitizeFilename] at hc
    obtain ⟨a, _, rfl⟩ := List.mem_map.mp hc
    by_cases h : isAllowedChar a
    · rw [if_pos h]; exact h
    · rw [if_neg h]; rfl
  · apply String.ext
    simp only [sanitizeFilename, List.map_map]
    apply List.map_congr_left
    intro a _
    by_cases h : isAllowedChar a
    · simp only [Function.comp_apply, if_pos h]
    · simp only [Function.comp_apply, if_neg h]
      rfl

/-- Witness for C10 at a name holding disallowed characters. -/
theorem sanitizeFilename_allowed_idem_witness :
    (∀ c ∈ (sanitizeFilename "a b/c?.jpg").data, isAllowedChar c = true) ∧
    sanitizeFilename (sanitizeFilename "a b/c?.jpg") = sanitizeFilename "a b/c?.jpg" :=
  sanitizeFilename_allowed_idem "a b/c?.jpg"

/-- C4: the normalized car id stored in the inserted event row is the first
non-empty of the synonyms `carID`, `carid`, `carId` in that order; when all
are empty it is the synthesized `auto-<nanos>` identifier, which is
non-empty and differs between calls with different nano timestamps. -/
theorem carId_first_nonempty_or_synth {F : Type}
    (unmarshal : String → Option (IncomingEvent F)) (parseFloat : String → Option F)
    (decode64 : String → Option String) (nanos now : Nat) (writeOk : String → Bool)
    (insUpOk insEmbOk : Nat → Bool) (req : Request) (db : DB F) (fs : FS)
    (raw : String) (ev : IncomingEvent F)
    (h1 : (resolvePayload req).1 = some raw) (h2 : raw ≠ "")
    (h3 : unmarshal raw = some ev)
    (h4 : ∀ e ∈ db.events, e.id < db.nextEventId) :
    ∃ r, (handleAPI unmarshal parseFloat decode64 nanos now writeOk insUpOk insEmbOk
        req db fs).2.1.events = db.events ++ [r] ∧
      (ev.carID ≠ "" → r.carID = ev.carID) ∧
      (ev.carID = "" → ev.carId ≠ "" → r.carID = ev.carId) ∧
      (ev.carID = "" → ev.carId = "" → ev.carId2 ≠ "" → r.carID = ev.carId2) ∧
      (ev.carID = "" → ev.carId = "" → ev.carId2 = "" →
        r.carID = "auto-" ++ natToDec nanos ∧ r.carID ≠ "" ∧
        ∀ n1 n2 : Nat, n1 ≠ n2 → normCarID ev n1 ≠ normCarID ev n2) := by
  obtain ⟨-, jf, hev⟩ := handleAPI_shape unmarshal parseFloat decode64 nanos now
    writeOk insUpOk insEmbOk req db fs raw ev h1 h2 h3 h4
  refine ⟨_, hev, ?_, ?_, ?_, ?_⟩ <;>
    (try intro hA) <;> (try intro hB) <;> (try intro hC)
  · show normCarID ev nanos = ev.carID
    simp [normCarID, coalesce, hA]
  · show normCarID ev nanos = ev.carId
    simp [normCarID, coalesce, hA, hB]
  · show normCarID ev nanos = ev.carId2
    simp [normCarID, coalesce, hA, hB, hC]
  · have hr : normCarID ev nanos = "auto-" ++ natToDec nanos := by
      simp [normCarID, coalesce, hA, hB, hC]
    refine ⟨hr, ?_, ?_⟩
    · show normCarID ev nanos ≠ ""
      rw [hr]; exact auto_ne_empty nanos
    · intro n1 n2 hne
      have hr1 : normCarID ev n1 = "auto-" ++ natToDec n1 := by
        simp [normCarID, coalesce, hA, hB, hC]
      have hr2 : normCarID ev n2 = "auto-" ++ natToDec n2 := by
        simp [normCarID, coalesce, hA, hB, hC]
      rw [hr1, hr2]
      exact autoId_inj hne

/-- Witness for C4 at a concrete all-empty payload. -/
theorem carId_first_nonempty_or_synth_witness :
    ∃ r, (handleAPI unmFix pfNone dcFix 5 7 allTrue idxTrue idxTrue
        (reqOf "E") {} ⟨[]⟩).2.1.events = ({} : DB Int).events ++ [r] ∧
      (evEmpty.carID ≠ "" → r.carID = evEmpty.carID) ∧
      (evEmpty.carID = "" → evEmpty.carId ≠ "" → r.carID = evEmpty.carId) ∧
      (evEmpty.carID = "" → evEmpty.carId = "" → evEmpty.carId2 ≠ "" →
        r.carID = evEmpty.carId2) ∧
      (evEmpty.carID = "" → evEmpty.carId = "" → evEmpty.carId2 = "" →
        r.carID = "auto-" ++ natToDec 5 ∧ r.carID ≠ "" ∧
        ∀ n1 n2 : Nat, n1 ≠ n2 → normCarID evEmpty n1 ≠ normCarID evEmpty n2) :=
  carId_first_nonempty_or_synth unmFix pfNone dcFix 5 7 allTrue idxTrue idxTrue
    (reqOf "E") {} ⟨[]⟩ "E" evEmpty (by decide) (by decide) (by decide) (by simp)

/-- C6: with a non-empty `plateConfidence` string that fails to parse,
ingestion still succeeds and the stored confidence is null; with a string
that parses, the parsed value is stored. -/
theorem plateConfidence_parse_failure_absent {F : Type}
    (unmarshal : String → Option (IncomingEvent F)) (parseFloat : String → Option F)
    (decode64 : String → Option String) (nanos now : Nat) (writeOk : String → Bool)
    (insUpOk insEmbOk : Nat → Bool) (req : Request) (db : DB F) (fs : FS)
    (raw : String) (ev : IncomingEvent F)
    (h1 : (resolvePayload req).1 = some raw) (h2 : raw ≠ "")
    (h3 : unmarshal raw = some ev)
    (h4 : ∀ e ∈ db.events, e.id < db.nextEventId) :
    (∃ n, (handleAPI unmarshal parseFloat decode64 nanos now writeOk insUpOk insEmbOk
        req db fs).1 = .ok db.nextEventId (coalesce [ev.plateUTF8, ev.plateText]) n) ∧
    ∃ r, (handleAPI unmarshal parseFloat decode64 nanos now writeOk insUpOk insEmbOk
        req db fs).2.1.events = db.events ++ [r] ∧
      (ev.plateConfidence ≠ "" → parseFloat ev.plateConfidence = none →
        r.plateConfidence = none) ∧
      (∀ v, ev.plateConfidence ≠ "" → parseFloat ev.plateConfidence = some v →
        r.plateConfidence = some v) := by
  obtain ⟨hok, jf, hev⟩ := handleAPI_shape unmarshal parseFloat decode64 nanos now
    writeOk insUpOk insEmbOk req db fs raw ev h1 h2 h3 h4
  refine ⟨hok, _, hev, ?_, ?_⟩
  · intro hA hB
    show normPlateConfidence parseFloat ev.plateConfidence = none
    simp [normPlateConfidence, hA, hB]
  · intro v hA hB
    show normPlateConfidence parseFloat ev.plateConfidence = some v
    simp [normPlateConfidence, hA, hB]

/-- Witness for C6 at a concrete payload whose confidence string is
non-empty and unparseable. -/
theorem plateConfidence_parse_failure_absent_witness :
    (∃ n, (handleAPI unmFix pfNone dcFix 5 7 allTrue idxTrue idxTrue
        (reqOf "C") {} ⟨[]⟩).1 =
      .ok ({} : DB Int).nextEventId (coalesce [evConf.plateUTF8, evConf.plateText]) n) ∧
    ∃ r, (handleAPI unmFix pfNone dcFix 5 7 allTrue idxTrue idxTrue
        (reqOf "C") {} ⟨[]⟩).2.1.events = ({} : DB Int).events ++ [r] ∧
      (evConf.plateConfidence ≠ "" → pfNone evConf.plateConfidence = none →
        r.plateConfidence = none) ∧
      (∀ v, evConf.plateConfidence ≠ "" → pfNone evConf.plateConfidence = some v →
        r.plateConfidence = some v) :=
  plateConfidence_parse_failure_absent unmFix pfNone dcFix 5 7 allTrue idxTrue idxTrue
    (reqOf "C") {} ⟨[]⟩ "C" evConf (by decide) (by decide) (by decide) (by simp)

/-- C9: the stored geotag latitude and longitude are populated together
(payload geotag present) or null together (absent), never singly. -/
theorem geotag_both_or_neither {F : Type}
    (unmarshal : String → Option (IncomingEvent F)) (parseFloat : String → Option F)
    (decode64 : String → Option String) (nanos now : Nat) (writeOk : String → Bool)
    (insUpOk insEmbOk : Nat → Bool) (req : Request) (db : DB F) (fs : FS)
    (raw : String) (ev : IncomingEvent F)
    (h1 : (resolvePayload req).1 = some raw) (h2 : raw ≠ "")
    (h3 : unmarshal raw = some ev)
    (h4 : ∀ e ∈ db.events, e.id < db.nextEventId) :
    ∃ r, (handleAPI unmarshal parseFloat decode64 nanos now writeOk insUpOk insEmbOk
        req db fs).2.1.events = db.events ++ [r] ∧
      (ev.geotag = none → r.geotagLat = none ∧ r.geotagLon = none) ∧
      (∀ g, ev.geotag = some g → r.geotagLat = some g.lat ∧ r.geotagLon = some g.lon) ∧
      (r.geotagLat.isSome ↔ r.geotagLon.isSome) := by
  obtain ⟨-, jf, hev⟩ := handleAPI_shape unmarshal parseFloat decode64 nanos now
    writeOk insUpOk insEmbOk req db fs raw ev h1 h2 h3 h4
  refine ⟨_, hev, ?_, ?_, ?_⟩
  · intro hA
    constructor
    · show (match ev.geotag with | some g => some g.lat | none => none) = none
      rw [hA]
    · show (match ev.geotag with | some g => some g.lon | none => none) = none
      rw [hA]
  · intro g hA
    constructor
    · show (match ev.geotag with | some g => some g.lat | none => none) = some g.lat
      rw [hA]
    · show (match ev.geotag with | some g => some g.lon | none => none) = some g.lon
      rw [hA]
  · show (match ev.geotag with | some g => some g.lat | none => none).isSome ↔
        (match ev.geotag with | some g => some g.lon | none => none).isSome
    cases ev.geotag <;> simp

/-- C2: cleaning with zero current events is a no-op; with N > 0 current
events it creates exactly one archive stamped with N, after which no event
is current and every previously-current event carries the new archive id. -/
theorem clean_snapshot_correct {F : Type} (now : Nat) (db : DB F) :
    (countCurrentEvents db = 0 → handleClean now db = db) ∧
    (0 < countCurrentEvents db →
      (handleClean now db).archives = db.archives ++
        [{ id := db.nextArchiveId, name := some (natToDec now),
           eventCount := countCurrentEvents db, createdAt := now }] ∧
      countCurrentEvents (handleClean now db) = 0 ∧
      (handleClean now db).events = db.events.map (fun e =>
        if e.archiveId.isNone then { e with archiveId := some db.nextArchiveId }
        else e) ∧
      ∀ e ∈ db.events, e.archiveId = none →
        ∃ e2 ∈ (handleClean now db).events, e2.id = e.id ∧
          e2.archiveId = some db.nextArchiveId) := by
  constructor
  · intro h
    simp [handleClean, h]
  · intro h
    have hne : ¬ countCurrentEvents db = 0 := by omega
    refine ⟨?_, ?_, ?_, ?_⟩
    · simp only [handleClean, if_neg hne]
      rfl
    · simp only [handleClean, if_neg hne]
      show ((db.events.map fun e =>
          if e.archiveId.isNone then { e with archiveId := some db.nextArchiveId }
          else e).filter (fun e => e.archiveId.isNone)).length = 0
      rw [List.length_eq_zero, List.filter_eq_nil_iff]
      intro e he
      obtain ⟨e0, _, rfl⟩ := List.mem_map.mp he
      cases h0 : e0.archiveId <;> simp [h0]
    · simp only [handleClean, if_neg hne]
      rfl
    · intro e he hcur
      simp only [handleClean, if_neg hne]
      refine ⟨_, List.mem_map_of_mem _ he, ?_, ?_⟩
      · show (if e.archiveId.isNone then { e with archiveId := some db.nextArchiveId }
            else e).id = e.id
        simp [hcur]
      · show (if e.archiveId.isNone then { e with archiveId := some db.nextArchiveId }
            else e).archiveId = some db.nextArchiveId
        simp [hcur]

/-- Witness for C2: both the empty-database no-op and the one-current-event
snapshot, at concrete states. -/
theorem clean_snapshot_correct_witness :
    (handleClean 9 ({} : DB Int) = {}) ∧
    ((handleClean 9 dbOneCurrent).archives = dbOneCurrent.archives ++
        [{ id := dbOneCurrent.nextArchiveId, name := some (natToDec 9),
           eventCount := countCurrentEvents dbOneCurrent, createdAt := 9 }] ∧
      countCurrentEvents (handleClean 9 dbOneCurrent) = 0 ∧
      (handleClean 9 dbOneCurrent).events = dbOneCurrent.events.map (fun e =>
        if e.archiveId.isNone then
          { e with archiveId := some dbOneCurrent.nextArchiveId }
        else e) ∧
      ∀ e ∈ dbOneCurrent.events, e.archiveId = none →
        ∃ e2 ∈ (handleClean 9 dbOneCurrent).events, e2.id = e.id ∧
          e2.archiveId = some dbOneCurrent.nextArchiveId) :=
  ⟨(clean_snapshot_correct 9 ({} : DB Int)).1 (by decide),
   (clean_snapshot_correct 9 dbOneCurrent).2 (by decide)⟩

/-- Key-filter shape of the upsert's UPDATE branch: every key row is
rewritten to the fresh row, other rows keep their key status. -/
theorem filter_key_map_upsert (aid eid : Nat) (f : String) (v : Bool) (now : Nat) :
    ∀ l : List CompareRow,
      (l.map (fun r => if compareKey aid eid f r then
          { r with isIncorrect := v, updatedAt := now } else r)).filter
        (compareKey aid eid f) =
      (l.filter (compareKey aid eid f)).map
        (fun _ => (⟨aid, eid, f, v, now⟩ : CompareRow)) := by
  intro l
  induction l with
  | nil => rfl
  | cons r rest ih =>
      by_cases hk : compareKey aid eid f r
      · have h3 : (r.archiveId = aid ∧ r.eventId = eid) ∧ r.field = f := by
          simpa [compareKey, Bool.and_eq_true, decide_eq_true_eq] using hk
        obtain ⟨⟨ha, hb⟩, hc⟩ := h3
        have hg : ({ r with isIncorrect := v, updatedAt := now } : CompareRow) =
            ⟨aid, eid, f, v, now⟩ := by
          rw [← ha, ← hb, ← hc]
        have hknew : compareKey aid eid f (⟨aid, eid, f, v, now⟩ : CompareRow) = true := by
          simp [compareKey]
        simp [hk, hg, hknew, ih]
      · simp [hk, ih]

/-- After one upsert on a database holding at most one row for the key,
the key's rows are exactly the freshly written one. -/
theorem setCompareResult_key {F : Type} (db : DB F) (aid eid : Nat) (f : String)
    (v : Bool) (now : Nat)
    (h : (db.compareResults.filter (compareKey aid eid f)).length ≤ 1) :
    (setCompareResult db aid eid f v now).compareResults.filter
      (compareKey aid eid f) = [⟨aid, eid, f, v, now⟩] := by
  have hknew : compareKey aid eid f (⟨aid, eid, f, v, now⟩ : CompareRow) = true := by
    simp [compareKey]
  by_cases hany : db.compareResults.any (compareKey aid eid f)
  · have hne : db.compareResults.filter (compareKey aid eid f) ≠ [] := by
      obtain ⟨x, hx, hkx⟩ := List.any_eq_true.mp hany
      intro hnil
      have : x ∈ db.compareResults.filter (compareKey aid eid f) :=
        List.mem_filter.mpr ⟨hx, hkx⟩
      rw [hnil] at this
      exact absurd this (List.not_mem_nil x)
    have hlen1 : (db.compareResults.filter (compareKey aid eid f)).length = 1 := by
      have : 0 < (db.compareResults.filter (compareKey aid eid f)).length :=
        List.length_pos.mpr hne
      omega
    obtain ⟨x, hx⟩ := List.length_eq_one.mp hlen1
    simp only [setCompareResult, if_pos hany]
    rw [filter_key_map_upsert, hx]
    rfl
  · have hnil : db.compareResults.filter (compareKey aid eid f) = [] := by
      rw [List.filter_eq_nil_iff]
      intro r hr
      intro hk
      exact hany (List.any_eq_true.mpr ⟨r, hr, hk⟩)
    simp only [setCompareResult, if_neg hany]
    rw [List.filter_append, hnil]
    simp [hknew]

/-- C5: an unknown compare field is rejected before any storage mutation;
for a valid field, two upserts with the same key leave exactly one row for
the key, holding the latest value. -/
theorem compareToggle_validates_and_upserts {F : Type} (aid eid : Nat) (f : String)
    (v1 v2 : Bool) (t1 t2 : Nat) (db : DB F) :
    (validCompareField f = false →
      handleCompareToggle aid eid f v1 t1 db = (.badField, db)) ∧
    (validCompareField f = true →
      (db.compareResults.filter (compareKey aid eid f)).length ≤ 1 →
      ((handleCompareToggle aid eid f v2 t2
          (handleCompareToggle aid eid f v1 t1 db).2).2.compareResults.filter
        (compareKey aid eid f)) = [⟨aid, eid, f, v2, t2⟩] ∧
      ∀ r ∈ (handleCompareToggle aid eid f v2 t2
          (handleCompareToggle aid eid f v1 t1 db).2).2.compareResults,
        compareKey aid eid f r = true → r.isIncorrect = v2) := by
  constructor
  · intro h
    simp [handleCompareToggle, h]
  · intro hv hlen
    have hstep : ∀ (d : DB F) (v : Bool) (t : Nat),
        (handleCompareToggle aid eid f v t d).2 = setCompareResult d aid eid f v t := by
      intro d v t
      simp [handleCompareToggle, hv]
    have h1 := setCompareResult_key db aid eid f v1 t1 hlen
    have hlen1 : ((setCompareResult db aid eid f v1 t1).compareResults.filter
        (compareKey aid eid f)).length ≤ 1 := by
      rw [h1]
      simp
    have h2 := setCompareResult_key (setCompareResult db aid eid f v1 t1)
      aid eid f v2 t2 hlen1
    rw [hstep, hstep]
    refine ⟨h2, ?_⟩
    intro r hr hk
    have hmem : r ∈ (setCompareResult (setCompareResult db aid eid f v1 t1)
        aid eid f v2 t2).compareResults.filter (compareKey aid eid f) :=
      List.mem_filter.mpr ⟨hr, hk⟩
    rw [h2] at hmem
    have : r = ⟨aid, eid, f, v2, t2⟩ := by simpa using hmem
    rw [this]

/-- Witness for C5: the rejected `"bogus"` field and a double `"plate"`
toggle on the empty database. -/
theorem compareToggle_validates_and_upserts_witness :
    (handleCompareToggle (F := Int) 1 2 "bogus" true 11 {} = (.badField, {})) ∧
    (((handleCompareToggle (F := Int) 1 2 "plate" false 12
        (handleCompareToggle (F := Int) 1 2 "plate" true 11 {}).2).2.compareResults.filter
      (compareKey 1 2 "plate")) = [⟨1, 2, "plate", false, 12⟩] ∧
     ∀ r ∈ (handleCompareToggle (F := Int) 1 2 "plate" false 12
        (handleCompareToggle (F := Int) 1 2 "plate" true 11 {}).2).2.compareResults,
       compareKey 1 2 "plate" r = true → r.isIncorrect = false) :=
  ⟨(compareToggle_validates_and_upserts (F := Int) 1 2 "bogus" true true 11 12 {}).1
      (by decide),
   (compareToggle_validates_and_upserts (F := Int) 1 2 "plate" true false 11 12 {}).2
      (by decide) (by decide)⟩

/-- C1: deleting an archive removes its events (lookups by their ids find
nothing), their images, and the compare results referencing the archive;
removing an already-missing disk file is a no-op, never an error. -/
theorem deleteArchive_removes_all {F : Type} (aid : Nat) (db : DB F) (fs : FS)
    (hnd : (db.events.map (fun e => e.id)).Nodup) :
    (∀ e2 ∈ (handleDeleteArchive aid db fs).1.events, e2.archiveId ≠ some aid) ∧
    (∀ eid, (∃ e ∈ db.events, e.id = eid ∧ e.archiveId = some aid) →
      getEventByID (handleDeleteArchive aid db fs).1 eid = none) ∧
    (∀ im ∈ (handleDeleteArchive aid db fs).1.images, ∀ e ∈ db.events,
      e.archiveId = some aid → im.eventId ≠ e.id) ∧
    (∀ r ∈ (handleDeleteArchive aid db fs).1.compareResults, r.archiveId ≠ aid) ∧
    (∀ a ∈ (handleDeleteArchive aid db fs).1.archives, a.id ≠ aid) ∧
    (∀ p, p ∉ fs.files → FS.remove fs p = fs) := by
  have hev : (handleDeleteArchive aid db fs).1.events =
      db.events.filter (fun e => e.archiveId ≠ some aid) := rfl
  have him : (handleDeleteArchive aid db fs).1.images =
      db.images.filter (fun i =>
        ¬ db.events.any (fun e => e.id = i.eventId && e.archiveId = some aid)) := rfl
  have hcr : (handleDeleteArchive aid db fs).1.compareResults =
      db.compareResults.filter (fun r => r.archiveId ≠ aid) := rfl
  have har : (handleDeleteArchive aid db fs).1.archives =
      db.archives.filter (fun a => a.id ≠ aid) := rfl
  refine ⟨?_, ?_, ?_, ?_, ?_, ?_⟩
  · intro e2 h
    rw [hev] at h
    simpa using (List.mem_filter.mp h).2
  · intro eid ⟨e, he, heid, harch⟩
    rw [getEventByID, List.find?_eq_none]
    intro x hx
    rw [hev] at hx
    obtain ⟨hx1, hx2⟩ := List.mem_filter.mp hx
    intro hxe
    have hxid : x.id = eid := by simpa using hxe
    have : x = e := List.inj_on_of_nodup_map hnd hx1 he (by rw [hxid, heid])
    rw [this] at hx2
    simp [harch] at hx2
  · intro im hi e he harch heq
    rw [him] at hi
    have h2 := (List.mem_filter.mp hi).2
    simp only [decide_eq_true_eq] at h2
    exact h2 (List.any_eq_true.mpr ⟨e, he, by simp [heq, harch]⟩)
  · intro r h
    rw [hcr] at h
    simpa using (List.mem_filter.mp h).2
  · intro a h
    rw [har] at h
    simpa using (List.mem_filter.mp h).2
  · intro p hp
    have : fs.files.filter (fun q => q ≠ p) = fs.files := by
      rw [List.filter_eq_self]
      intro a ha
      simp only [decide_eq_true_eq]
      intro hap
      exact hp (hap ▸ ha)
    show (⟨fs.files.filter (fun q => q ≠ p)⟩ : FS) = fs
    rw [this]

/-- Witness for C1 at a one-event archive with an image, a compare flag,
and a file system missing one of the referenced files. -/
theorem deleteArchive_removes_all_witness :
    (∀ e2 ∈ (handleDeleteArchive 1 dbArch ⟨["json/other"]⟩).1.events,
      e2.archiveId ≠ some 1) ∧
    (∀ eid, (∃ e ∈ dbArch.events, e.id = eid ∧ e.archiveId = some 1) →
      getEventByID (handleDeleteArchive 1 dbArch ⟨["json/other"]⟩).1 eid = none) ∧
    (∀ im ∈ (handleDeleteArchive 1 dbArch ⟨["json/other"]⟩).1.images,
      ∀ e ∈ dbArch.events, e.archiveId = some 1 → im.eventId ≠ e.id) ∧
    (∀ r ∈ (handleDeleteArchive 1 dbArch ⟨["json/other"]⟩).1.compareResults,
      r.archiveId ≠ 1) ∧
    (∀ a ∈ (handleDeleteArchive 1 dbArch ⟨["json/other"]⟩).1.archives, a.id ≠ 1) ∧
    (∀ p, p ∉ (⟨["json/other"]⟩ : FS).files →
      FS.remove ⟨["json/other"]⟩ p = ⟨["json/other"]⟩) :=
  deleteArchive_removes_all 1 dbArch ⟨["json/other"]⟩ (by decide)

/-- The `events` table after `HandleAPI`: unchanged on the error paths,
extended by exactly one fresh-id row on success. -/
theorem handleAPI_events_cases {F : Type} (unmarshal : String → Option (IncomingEvent F))
    (parseFloat : String → Option F) (decode64 : String → Option String)
    (nanos now : Nat) (writeOk : String → Bool) (insUpOk insEmbOk : Nat → Bool)
    (req : Request) (db : DB F) (fs : FS)
    (hfresh : ∀ e ∈ db.events, e.id < db.nextEventId) :
    (handleAPI unmarshal parseFloat decode64 nanos now writeOk insUpOk insEmbOk
      req db fs).2.1.events = db.events ∨
    ∃ r, (handleAPI unmarshal parseFloat decode64 nanos now writeOk insUpOk insEmbOk
      req db fs).2.1.events = db.events ++ [r] ∧ r.id = db.nextEventId := by
  cases hres : (resolvePayload req).1 with
  | none => left; simp [handleAPI, hres]
  | some raw =>
      by_cases hraw : raw = ""
      · left; simp [handleAPI, hres, hraw]
      · cases hunm : unmarshal raw with
        | none => left; simp [handleAPI, hres, hraw, hunm]
        | some ev =>
            obtain ⟨-, jf, hevs⟩ := handleAPI_shape unmarshal parseFloat decode64
              nanos now writeOk insUpOk insEmbOk req db fs raw ev hres hraw hunm hfresh
            right
            exact ⟨_, hevs, rfl⟩

/-- C3: across every operation of the system, an event's `archive_id`
either stays what it was or moves from null to some archive id; it never
reverts and never moves between archives. -/
theorem archiveId_monotone {F : Type} (op : Op F) (db : DB F) (fs : FS)
    (hnd : (db.events.map (fun e => e.id)).Nodup)
    (hfresh : ∀ e ∈ db.events, e.id < db.nextEventId) :
    ∀ e ∈ db.events, ∀ e2 ∈ (applyOp op (db, fs)).1.events, e2.id = e.id →
      e2.archiveId = e.archiveId ∨
      (e.archiveId = none ∧ ∃ a, e2.archiveId = some a) := by
  intro e he e2 he2 hid
  have hinj := List.inj_on_of_nodup_map hnd
  cases op with
  | api u p d nanos now w iu ie req =>
      simp only [applyOp] at he2
      rcases handleAPI_events_cases u p d nanos now w iu ie req db fs hfresh with
        hc | ⟨r, hc, hr⟩
      · rw [hc] at he2
        left
        rw [hinj he2 he hid]
      · rw [hc] at he2
        rcases List.mem_append.mp he2 with h2 | h2
        · left
          rw [hinj h2 he hid]
        · exfalso
          have he2r : e2 = r := by simpa using h2
          rw [he2r, hr] at hid
          have := hfresh e he
          omega
  | clean now =>
      simp only [applyOp] at he2
      by_cases h0 : countCurrentEvents db = 0
      · rw [show handleClean now db = db from by simp [handleClean, h0]] at he2
        left
        rw [hinj he2 he hid]
      · have hc : (handleClean now db).events = db.events.map (fun e =>
            if e.archiveId.isNone then { e with archiveId := some db.nextArchiveId }
            else e) := by
          simp only [handleClean, if_neg h0]
          rfl
        rw [hc] at he2
        obtain ⟨e0, he0, heq⟩ := List.mem_map.mp he2
        have hid0 : e2.id = e0.id := by
          rw [← heq]
          cases h1 : e0.archiveId <;> simp [h1]
        have he0e : e0 = e := hinj he0 he (by rw [← hid0, hid])
        rw [he0e] at heq
        cases h1 : e.archiveId with
        | none =>
            right
            refine ⟨rfl, db.nextArchiveId, ?_⟩
            rw [← heq]
            simp [h1]
        | some a =>
            left
            rw [← heq]
            simp [h1]
  | deleteArch aid =>
      simp only [applyOp] at he2
      have hc : (handleDeleteArchive aid db fs).1.events =
          db.events.filter (fun e => e.archiveId ≠ some aid) := rfl
      rw [hc] at he2
      left
      rw [hinj (List.mem_filter.mp he2).1 he hid]
  | renameArch aid name =>
      simp only [applyOp] at he2
      have hc : (handleRenameArchive aid name db).events = db.events := by
        simp only [handleRenameArchive]
        split_ifs <;> rfl
      rw [hc] at he2
      left
      rw [hinj he2 he hid]
  | toggle aid eid f v now =>
      simp only [applyOp] at he2
      have hset : ∀ (x : DB F), (setCompareResult x aid eid f v now).events = x.events := by
        intro x
        simp only [setCompareResult]
        split_ifs <;> rfl
      have hc : ((handleCompareToggle aid eid f v now db).2).events = db.events := by
        simp only [handleCompareToggle]
        split_ifs with h
        · exact hset db
        · rfl
      rw [hc] at he2
      left
      rw [hinj he2 he hid]

/-- Witness for C3: the clean operation on a one-current-event database,
instantiated at the archived copy of that event. -/
theorem archiveId_monotone_witness :
    ({ rowCur with archiveId := some 1 } : EventRow Int).archiveId = rowCur.archiveId ∨
    (rowCur.archiveId = none ∧
      ∃ a, ({ rowCur with archiveId := some 1 } : EventRow Int).archiveId = some a) :=
  archiveId_monotone (Op.clean 9) dbOneCurrent ⟨[]⟩ (by decide) (by decide)
    rowCur (by decide) { rowCur with archiveId := some 1 } (by decide) (by decide)

/-- The count returned by the embedded-images loop: exactly the elements
with a non-empty binary, a successful decode, and a successful insert. -/
theorem saveEmb_count {F : Type} (d : String → Option String) (w : String → Bool)
    (io : Nat → Bool) (pl : String) (eid now : Nat) :
    ∀ (l : List (Nat × ImageArrayEntry)) (db : DB F) (fs : FS),
      (saveEmbeddedImages d w io pl eid now l db fs).2.2 =
        (l.filter (fun p =>
          p.2.binaryImage ≠ "" && (d p.2.binaryImage).isSome && io p.1)).length := by
  intro l
  induction l with
  | nil => intro db fs; rfl
  | cons p rest ih =>
      intro db fs
      obtain ⟨i, img⟩ := p
      by_cases hb : img.binaryImage = ""
      · simp [saveEmbeddedImages, hb, ih]
      · cases hd : d img.binaryImage with
        | none => simp [saveEmbeddedImages, hb, hd, ih]
        | some decoded =>
            by_cases hio : io i
            · simp [saveEmbeddedImages, hb, hd, hio, ih]
            · simp [saveEmbeddedImages, hb, hd, hio, ih]

/-- C7: ingestion of a payload succeeds whatever its `ImageArray` holds;
the reported count excludes the empty-binary and undecodable elements and
counts exactly the elements whose insert succeeded. -/
theorem imageArray_skips_counted {F : Type}
    (unmarshal : String → Option (IncomingEvent F)) (parseFloat : String → Option F)
    (decode64 : String → Option String) (nanos now : Nat) (writeOk : String → Bool)
    (insUpOk insEmbOk : Nat → Bool) (req : Request) (db : DB F) (fs : FS)
    (ev : IncomingEvent F)
    (hm : req.multipart = false) (h2 : req.body ≠ "")
    (h3 : unmarshal req.body = some ev) :
    (handleAPI unmarshal parseFloat decode64 nanos now writeOk insUpOk insEmbOk
      req db fs).1 =
    .ok db.nextEventId (coalesce [ev.plateUTF8, ev.plateText])
      ((ev.imageArray.enum.filter (fun p =>
        p.2.binaryImage ≠ "" && (decode64 p.2.binaryImage).isSome &&
          insEmbOk p.1)).length) := by
  have hres : (resolvePayload req).1 = some req.body := by
    simp [resolvePayload, hm]
  have hups : uploadsOf req = [] := by
    simp [uploadsOf, hm]
  simp only [handleAPI, hres, h3, hups]
  rw [if_neg h2]
  simp only [List.enum_nil, saveUploadedImages]
  rw [saveEmb_count]
  simp [insertEvent]

/-- Witness for C7 at a payload with one good, one empty-binary and one
undecodable embedded image. -/
theorem imageArray_skips_counted_witness :
    (handleAPI unmFix pfNone dcFix 5 7 allTrue idxTrue idxTrue
      (reqOf "I") {} ⟨[]⟩).1 =
    .ok ({} : DB Int).nextEventId (coalesce [evImgs.plateUTF8, evImgs.plateText])
      ((evImgs.imageArray.enum.filter (fun p =>
        p.2.binaryImage ≠ "" && (dcFix p.2.binaryImage).isSome &&
          idxTrue p.1)).length) :=
  imageArray_skips_counted unmFix pfNone dcFix 5 7 allTrue idxTrue idxTrue
    (reqOf "I") {} ⟨[]⟩ evImgs (by decide) (by decide) (by decide)

/-- A name ending in `.json` ends in none of the image suffixes. -/
theorem json_not_img {n : String} (h : isJsonName n = true) : isImgName n = false := by
  have hj : (".json" : String).data <:+ (strLower n).data := by
    simp only [isJsonName, strHasSuffix] at h
    exact List.isSuffixOf_iff_suffix.mp h
  have key : ∀ s : String, strHasSuffix (strLower n) s = true →
      s.data <:+ (".json" : String).data ∨ (".json" : String).data <:+ s.data := by
    intro s hs
    simp only [strHasSuffix] at hs
    exact List.suffix_or_suffix_of_suffix (List.isSuffixOf_iff_suffix.mp hs) hj
  have h1 : strHasSuffix (strLower n) ".jpg" = false := by
    rw [Bool.eq_false_iff]
    intro hc
    rcases key ".jpg" hc with hx | hx <;> revert hx <;> decide
  have h2 : strHasSuffix (strLower n) ".jpeg" = false := by
    rw [Bool.eq_false_iff]
    intro hc
    rcases key ".jpeg" hc with hx | hx <;> revert hx <;> decide
  have h3 : strHasSuffix (strLower n) ".png" = false := by
    rw [Bool.eq_false_iff]
    intro hc
    rcases key ".png" hc with hx | hx <;> revert hx <;> decide
  simp [isImgName, h1, h2, h3]

/-- The `uploadedImages` list is exactly the file parts with an image
suffix and no `.json` suffix, in order. -/
theorem classify_ups : ∀ l : List FilePart,
    (classifyParts l).2 =
      l.filter (fun p => !(isJsonName p.filename) && isImgName p.filename) := by
  intro l
  induction l with
  | nil => rfl
  | cons p rest ih =>
      rcases hcr : classifyParts rest with ⟨js, ups⟩
      rw [hcr] at ih
      by_cases hj : isJsonName p.filename
      · simp [classifyParts, hcr, hj, ih]
      · by_cases hi : isImgName p.filename
        · simp [classifyParts, hcr, hj, hi, ih]
        · simp [classifyParts, hcr, hj, hi, ih]

/-- With no `.json`-suffixed part, no payload part is selected. -/
theorem classify_js_none : ∀ l : List FilePart,
    (∀ p ∈ l, isJsonName p.filename = false) → (classifyParts l).1 = none := by
  intro l
  induction l with
  | nil => intro _; rfl
  | cons p rest ih =>
      intro h
      rcases hcr : classifyParts rest with ⟨js, ups⟩
      have hp := h p (by simp)
      have hjs : js = none := by
        have h0 := ih (fun q hq => h q (by simp [hq]))
        rw [hcr] at h0
        exact h0
      by_cases hi : isImgName p.filename <;>
        simp [classifyParts, hcr, hp, hi, hjs]

/-- With exactly one `.json`-suffixed part, that part is the payload. -/
theorem classify_js_unique : ∀ (l : List FilePart) (j : FilePart),
    l.filter (fun p => isJsonName p.filename) = [j] →
    (classifyParts l).1 = some j := by
  intro l
  induction l with
  | nil =>
      intro j h
      exact absurd h (by simp)
  | cons p rest ih =>
      intro j h
      rcases hcr : classifyParts rest with ⟨js, ups⟩
      by_cases hj : isJsonName p.filename
      · rw [List.filter_cons] at h
        simp only [hj, if_true] at h
        obtain ⟨rfl, hrest⟩ : p = j ∧ rest.filter (fun p => isJsonName p.filename) = [] := by
          simpa using h
        have hjs : js = none := by
          have h0 := classify_js_none rest (by
            intro q hq
            have := List.filter_eq_nil_iff.mp hrest q hq
            simpa using this)
          rw [hcr] at h0
          exact h0
        simp [classifyParts, hcr, hj, hjs]
      · rw [List.filter_cons] at h
        simp only [hj, if_false, Bool.false_eq_true, ite_false] at h
        have h0 := ih j h
        rw [hcr] at h0
        by_cases hi : isImgName p.filename <;>
          simp [classifyParts, hcr, hj, hi, h0]

/-- Every disk name built for an uploaded image starts with its own
image-row id and an underscore, in both branches. -/
theorem mkUploadDiskName_pre (k : Nat) (fn pl : String) (i : Nat) :
    strHasPre (mkUploadDiskName k fn pl i) (natToDec k ++ "_") = true := by
  simp only [mkUploadDiskName]
  by_cases h : (natToDec k ++ "_") ++ sanitizeFilename fn = natToDec k ++ "_"
  · rw [if_pos h]
    exact strHasPre_append _ _
  · rw [if_neg h]
    exact strHasPre_append _ _

/-- The image rows produced by an all-successful uploaded-images loop,
starting at image id `k`. -/
def mkUpRows (pl : String) (eid now : Nat) : List (Nat × FilePart) → Nat → List ImageRow
  | [], _ => []
  | (i, fp) :: rest, k =>
      { id := k, eventId := eid, imageType := some (detectImgType fp.filename),
        filename := some fp.filename, imageData := fp.data, createdAt := now,
        diskFilename := some (mkUploadDiskName k fp.filename pl i) } ::
        mkUpRows pl eid now rest (k + 1)

/-- One step of the uploaded-images loop when the insert and the disk
write both succeed. -/
theorem saveUp_cons_ok {F : Type} (w : String → Bool) (io : Nat → Bool)
    (pl : String) (eid now : Nat) (i : Nat) (fp : FilePart)
    (rest : List (Nat × FilePart)) (db : DB F) (fs : FS)
    (hio : io i = true)
    (hw : w ("images/" ++ mkUploadDiskName db.nextImageId fp.filename pl i) = true) :
    saveUploadedImages w io pl eid now ((i, fp) :: rest) db fs =
      ((saveUploadedImages w io pl eid now rest
          (updateImageDiskFilename
            { db with
              images := db.images ++
                [{ id := db.nextImageId, eventId := eid,
                   imageType := some (detectImgType fp.filename),
                   filename := some fp.filename, imageData := fp.data,
                   createdAt := now, diskFilename := none }]
              nextImageId := db.nextImageId + 1 }
            (mkUploadDiskName db.nextImageId fp.filename pl i) db.nextImageId)
          (fs.write ("images/" ++ mkUploadDiskName db.nextImageId fp.filename pl i))).1,
       (saveUploadedImages w io pl eid now rest
          (updateImageDiskFilename
            { db with
              images := db.images ++
                [{ id := db.nextImageId, eventId := eid,
                   imageType := some (detectImgType fp.filename),
                   filename := some fp.filename, imageData := fp.data,
                   createdAt := now, diskFilename := none }]
              nextImageId := db.nextImageId + 1 }
            (mkUploadDiskName db.nextImageId fp.filename pl i) db.nextImageId)
          (fs.write ("images/" ++ mkUploadDiskName db.nextImageId fp.filename pl i))).2.1,
       (saveUploadedImages w io pl eid now rest
          (updateImageDiskFilename
            { db with
              images := db.images ++
                [{ id := db.nextImageId, eventId := eid,
                   imageType := some (detectImgType fp.filename),
                   filename := some fp.filename, imageData := fp.data,
                   createdAt := now, diskFilename := none }]
              nextImageId := db.nextImageId + 1 }
            (mkUploadDiskName db.nextImageId fp.filename pl i) db.nextImageId)
          (fs.write ("images/" ++ mkUploadDiskName db.nextImageId fp.filename pl i))).2.2
         + 1) := by
  simp only [saveUploadedImages, insertImageWithID]
  rw [if_pos hio, if_pos hw]

/-- Under all-successful inserts and writes, the uploaded-images loop
appends exactly one backfilled row per file part. -/
theorem saveUp_all_ok {F : Type} (w : String → Bool) (io : Nat → Bool)
    (pl : String) (eid now : Nat)
    (hw : ∀ p, w p = true) (hio : ∀ i, io i = true) :
    ∀ (l : List (Nat × FilePart)) (db : DB F) (fs : FS),
      (∀ im ∈ db.images, im.id < db.nextImageId) →
      (saveUploadedImages w io pl eid now l db fs).1.images =
        db.images ++ mkUpRows pl eid now l db.nextImageId := by
  intro l
  induction l with
  | nil =>
      intro db fs _
      simp [saveUploadedImages, mkUpRows]
  | cons p rest ih =>
      intro db fs hf
      obtain ⟨i, fp⟩ := p
      rw [saveUp_cons_ok w io pl eid now i fp rest db fs (hio i) (hw _)]
      have hupd : (updateImageDiskFilename
          { db with
            images := db.images ++
              [{ id := db.nextImageId, eventId := eid,
                 imageType := some (detectImgType fp.filename),
                 filename := some fp.filename, imageData := fp.data,
                 createdAt := now, diskFilename := none }]
            nextImageId := db.nextImageId + 1 }
          (mkUploadDiskName db.nextImageId fp.filename pl i) db.nextImageId).images =
          db.images ++
            [{ id := db.nextImageId, eventId := eid,
               imageType := some (detectImgType fp.filename),
               filename := some fp.filename, imageData := fp.data,
               createdAt := now,
               diskFilename := some (mkUploadDiskName db.nextImageId fp.filename pl i) }] := by
        simp only [updateImageDiskFilename, List.map_append]
        rw [map_updDisk_fresh _ _ _ hf]
        simp
      rw [ih _ _ (by
        rw [hupd]
        intro im him
        rcases List.mem_append.mp him with h0 | h0
        · have := hf im h0
          show im.id < db.nextImageId + 1
          omega
        · have heq := List.mem_singleton.mp h0
          rw [heq]
          exact Nat.lt_succ_self _)]
      rw [hupd]
      show db.images ++ _ ++ _ = db.images ++ _
      rw [List.append_assoc]
      rfl

/-- C8: a multipart request with exactly one `.json` part and exactly two
`.jpg` parts produces one new event row and exactly two new image rows,
each with a disk filename prefixed by its own assigned id. -/
theorem multipart_ingest_rows_and_names {F : Type}
    (unmarshal : String → Option (IncomingEvent F)) (parseFloat : String → Option F)
    (decode64 : String → Option String) (nanos now : Nat) (writeOk : String → Bool)
    (insUpOk insEmbOk : Nat → Bool) (req : Request) (db : DB F) (fs : FS)
    (j a b : FilePart) (ev : IncomingEvent F)
    (hm : req.multipart = true)
    (hj : req.fileParts.filter (fun p => isJsonName p.filename) = [j])
    (hi : req.fileParts.filter (fun p => isImgName p.filename) = [a, b])
    (hdata : j.data ≠ "")
    (hunm : unmarshal j.data = some ev)
    (hemb : ev.imageArray = [])
    (hw : ∀ p, writeOk p = true) (hio : ∀ i, insUpOk i = true)
    (hfreshE : ∀ e ∈ db.events, e.id < db.nextEventId)
    (hfreshI : ∀ im ∈ db.images, im.id < db.nextImageId) :
    (handleAPI unmarshal parseFloat decode64 nanos now writeOk insUpOk insEmbOk
      req db fs).2.1.events.length = db.events.length + 1 ∧
    ∃ r0 r1, (handleAPI unmarshal parseFloat decode64 nanos now writeOk insUpOk insEmbOk
        req db fs).2.1.images = db.images ++ [r0, r1] ∧
      r0.eventId = db.nextEventId ∧ r1.eventId = db.nextEventId ∧
      ∃ d0 d1, r0.diskFilename = some d0 ∧ r1.diskFilename = some d1 ∧
        strHasPre d0 (natToDec r0.id ++ "_") = true ∧
        strHasPre d1 (natToDec r1.id ++ "_") = true := by
  have hcl : (classifyParts req.fileParts).1 = some j :=
    classify_js_unique req.fileParts j hj
  have h1 : (resolvePayload req).1 = some j.data := by
    simp [resolvePayload, hm, hcl]
  have huploads : uploadsOf req = [a, b] := by
    rw [uploadsOf, if_pos hm, classify_ups]
    rw [← hi]
    apply List.filter_congr
    intro p _
    by_cases hjp : isJsonName p.filename
    · rw [json_not_img hjp, hjp]
      rfl
    · simp [hjp]
  constructor
  · obtain ⟨-, jf, hevs⟩ := handleAPI_shape unmarshal parseFloat decode64 nanos now
      writeOk insUpOk insEmbOk req db fs j.data ev h1 hdata hunm hfreshE
    rw [hevs]
    simp
  · simp only [handleAPI, h1, hunm, insertEvent]
    rw [if_neg hdata, if_pos (hw _), huploads, hemb]
    rw [show ([a, b] : List FilePart).enum = [(0, a), (1, b)] from rfl]
    simp only [List.enum_nil, saveEmbeddedImages]
    rw [saveUp_all_ok writeOk insUpOk _ _ now hw hio _ _ _ (by
      intro im him
      exact hfreshI im him)]
    refine ⟨⟨db.nextImageId, db.nextEventId, some (detectImgType a.filename),
        some a.filename, a.data, now,
        some (mkUploadDiskName db.nextImageId a.filename
          (coalesce [ev.plateUTF8, ev.plateText]) 0)⟩,
      ⟨db.nextImageId + 1, db.nextEventId, some (detectImgType b.filename),
        some b.filename, b.data, now,
        some (mkUploadDiskName (db.nextImageId + 1) b.filename
          (coalesce [ev.plateUTF8, ev.plateText]) 1)⟩,
      ?_, rfl, rfl,
      mkUploadDiskName db.nextImageId a.filename
        (coalesce [ev.plateUTF8, ev.plateText]) 0,
      mkUploadDiskName (db.nextImageId + 1) b.filename
        (coalesce [ev.plateUTF8, ev.plateText]) 1,
      rfl, rfl, mkUploadDiskName_pre _ _ _ _, mkUploadDiskName_pre _ _ _ _⟩
    simp [mkUpRows, updateEventJsonFilename]

/-- Witness for C8: one `.json` part and two `.jpg` parts on the empty
database. -/
theorem multipart_ingest_rows_and_names_witness :
    (handleAPI unmFix pfNone dcFix 5 7 allTrue idxTrue idxTrue reqMp {} ⟨[]⟩).2.1.events.length
      = ({} : DB Int).events.length + 1 ∧
    ∃ r0 r1, (handleAPI unmFix pfNone dcFix 5 7 allTrue idxTrue idxTrue
        reqMp {} ⟨[]⟩).2.1.images = ({} : DB Int).images ++ [r0, r1] ∧
      r0.eventId = ({} : DB Int).nextEventId ∧ r1.eventId = ({} : DB Int).nextEventId ∧
      ∃ d0 d1, r0.diskFilename = some d0 ∧ r1.diskFilename = some d1 ∧
        strHasPre d0 (natToDec r0.id ++ "_") = true ∧
        strHasPre d1 (natToDec r1.id ++ "_") = true :=
  multipart_ingest_rows_and_names unmFix pfNone dcFix 5 7 allTrue idxTrue idxTrue
    reqMp {} ⟨[]⟩ ⟨"e.json", "E"⟩ ⟨"x.jpg", "D1"⟩ ⟨"roi.jpg", "D2"⟩ evEmpty
    (by decide) (by decide) (by decide) (by decide) (by decide) (by decide)
    (fun _ => rfl) (fun _ => rfl) (by simp) (by simp)

/-- Witness for C9 at a concrete payload carrying a geotag. -/
theorem geotag_both_or_neither_witness :
    ∃ r, (handleAPI unmFix pfNone dcFix 5 7 allTrue idxTrue idxTrue
        (reqOf "G") {} ⟨[]⟩).2.1.events = ({} : DB Int).events ++ [r] ∧
      (evGeo.geotag = none → r.geotagLat = none ∧ r.geotagLon = none) ∧
      (∀ g, evGeo.geotag = some g → r.geotagLat = some g.lat ∧ r.geotagLon = some g.lon) ∧
      (r.geotagLat.isSome ↔ r.geotagLon.isSome) :=
  geotag_both_or_neither unmFix pfNone dcFix 5 7 allTrue idxTrue idxTrue
    (reqOf "G") {} ⟨[]⟩ "G" evGeo (by decide) (by decide) (by decide) (by simp)

end Mmr
